import Mathlib

/-!
# Verification of the VOPRF library specification (draft-irtf-cfrg-voprf-10 style)

The crate root (`lib.rs`) declares the modules `ciphersuite`, `common`, `group`,
`oprf`, `poprf`, `serialization` and `voprf`, but their sources are not part of
the material under verification; only the crate root with its documentation is.
The definitions below are therefore modelled from the specification's own
description of the protocol (§4 Component design, §4.3 Key derivation,
§4.4–4.7 the three modes and the DLEQ engine, §6 Wire encodings).

The prime-order group abstraction is instantiated with a small concrete
prime-order group: the additive group of `ZMod q` for the prime `q = 97`,
written multiplicatively through its discrete-log representation (an element
is the scalar `e` standing for `e · B`); scalar–element multiplication is
field multiplication, the generator is `1` and the identity is `0`.  The
concrete curves (Ristretto255, P-256) are external dependencies of the crate
and out of scope per §1.
-/

set_option maxRecDepth 16384

deriving instance DecidableEq for Except

namespace Voprf

/-- Modelled from the spec: the scalar field `F` of the prime-order group
(group module is not in the sources); instantiated as `ZMod 97`. -/
abbrev Scalar : Type := ZMod 97

/-- Modelled from the spec: a group element of the prime-order group `G` in
discrete-log representation: the element `e : ZMod 97` stands for `e · B`. -/
abbrev Element : Type := ZMod 97

/-- Modelled from the spec: the group generator `B` (discrete-log
representation: `B = 1 · B`). -/
def generator : Element := 1

/-- Modelled from the spec: the group identity element. -/
def identityElement : Element := 0

/-- Modelled from the spec: scalar serialization width `Ns` (§6); the toy
group uses 2-byte big-endian encodings. -/
def Ns : Nat := 2

/-- Modelled from the spec: element serialization width `Ne` (§6). -/
def Ne : Nat := 2

/-- Modelled from the spec: the error kinds of §7 (module error is not in the
sources). -/
inductive Error where
  | Deserialization
  | Input
  | ProofVerification
  | DeriveKeyPair
  | Batch
deriving DecidableEq

/-- Modelled from the spec: `I2OSP(n, len)`, big-endian fixed-width byte
encoding of a natural number. -/
def i2osp (n len : Nat) : List Nat :=
  (List.range len).map fun i => n / 256 ^ (len - 1 - i) % 256

/-- Modelled from the spec: `OS2IP`, big-endian byte decoding. -/
def os2ip (bs : List Nat) : Nat :=
  bs.foldl (fun acc b => acc * 256 + b) 0

/-- ASCII bytes of a label string. -/
def strBytes (s : String) : List Nat := s.toList.map Char.toNat

/-- Modelled from the spec: the ciphersuite identifier string of the toy
suite (§4.2; ciphersuite module is not in the sources). -/
def suiteID : List Nat := strBytes "toy97-TOYHASH"

/-- Modelled from the spec: `contextString = "VOPRF10-" || I2OSP(mode,1) ||
"-" || suiteID` (§4.2). -/
def contextString (mode : Nat) : List Nat :=
  strBytes "VOPRF10-" ++ i2osp mode 1 ++ strBytes "-" ++ suiteID

/-- Modelled from the spec: the ciphersuite hash function `Hash`; a toy
byte-level hash standing for SHA-2 (concrete hash is an external
dependency). -/
def Hash (bs : List Nat) : List Nat :=
  [bs.length % 256, bs.foldl (fun a b => (a * 31 + b + 1) % 256) 7,
   bs.foldl (fun a b => (a * 57 + b + 3) % 251) 11]

/-- Modelled from the spec: `hash_to_scalar(messages, dst)`, deterministic in
message and DST, uniform over `F` in the real suite (§4.1). -/
def hashToScalar (msg dst : List Nat) : Scalar :=
  (((msg ++ 255 :: dst).foldl (fun a b => a * 256 + b + 1) 1 : Nat) : Scalar)

/-- Modelled from the spec: `hash_to_group(messages, dst)`, deterministic
(§4.1); in the toy group it may hit the identity, which callers reject. -/
def hashToGroup (msg dst : List Nat) : Element :=
  (((msg ++ 254 :: dst).foldl (fun a b => a * 256 + b + 2) 3 : Nat) : Element)

/-- Modelled from the spec: the `"HashToGroup-"` DST of a mode (§4.2). -/
def hashToGroupDST (mode : Nat) : List Nat :=
  strBytes "HashToGroup-" ++ contextString mode

/-- Modelled from the spec: the `"HashToScalar-"` DST of a mode (§4.2). -/
def hashToScalarDST (mode : Nat) : List Nat :=
  strBytes "HashToScalar-" ++ contextString mode

instance : Fact (Nat.Prime 97) := ⟨by norm_num⟩

/-- Modelled from the spec: `scalar_invert` of the group abstraction (§4.1),
computed by Fermat inversion `s ^ (q - 2)` so that it evaluates by kernel
reduction; agrees with field inversion on non-zero scalars
(`scalarInvert_eq_inv`). -/
def scalarInvert (s : Scalar) : Scalar := s ^ 95

/-- Fermat inversion agrees with field inversion away from zero. -/
theorem scalarInvert_eq_inv {s : Scalar} (h : s ≠ 0) : scalarInvert s = s⁻¹ := by
  have h1 : s ^ 96 = 1 := by simpa using ZMod.pow_card_sub_one_eq_one h
  exact eq_inv_of_mul_eq_one_left (by rw [scalarInvert, ← pow_succ]; exact h1)

/-- Modelled from the spec: serialize a scalar as `Ns` big-endian bytes. -/
def serializeScalar (s : Scalar) : List Nat := i2osp s.val Ns

/-- Modelled from the spec: serialize an element as `Ne` bytes (canonical
compressed form; here the big-endian bytes of the discrete log). -/
def serializeElement (e : Element) : List Nat := i2osp e.val Ne

/-- Modelled from the spec: deserialize a scalar; fails on wrong length or a
non-canonical encoding (a value `≥ q`). -/
def deserializeScalar : List Nat → Except Error Scalar
  | [b1, b0] =>
    if b1 * 256 + b0 < 97 then .ok ((b1 * 256 + b0 : Nat) : Scalar)
    else .error .Deserialization
  | _ => .error .Deserialization

/-- Modelled from the spec: deserialize an element used as a protocol value;
fails on wrong length, non-canonical encoding, or the identity (§4.1). -/
def deserializeElement : List Nat → Except Error Element
  | [b1, b0] =>
    if b1 * 256 + b0 < 97 ∧ b1 * 256 + b0 ≠ 0 then
      .ok ((b1 * 256 + b0 : Nat) : Element)
    else .error .Deserialization
  | _ => .error .Deserialization

/-- Modelled from the spec: `BlindedElement BE = r · H(input)` (§3; common
module is not in the sources). -/
structure BlindedElement where
  e : Element
deriving DecidableEq

/-- Modelled from the spec: `EvaluationElement EE` (§3). -/
structure EvaluationElement where
  e : Element
deriving DecidableEq

/-- Modelled from the spec: a DLEQ proof `π = (c, s)`, two scalars (§3). -/
structure Proof where
  c : Scalar
  s : Scalar
deriving DecidableEq

/-- Modelled from the spec: the base-mode client state: the private blind `r`
and the original input (§3; oprf module is not in the sources). -/
structure OprfClient where
  r : Scalar
  input : List Nat
deriving DecidableEq

/-- Modelled from the spec: the base-mode server, owning a non-zero secret
key (§3). -/
structure OprfServer where
  sk : Scalar
deriving DecidableEq

/-- Modelled from the spec: `Client.blind(input, rng)` of §4.4; the random
scalar drawn from the RNG is passed explicitly.  Fails `Input` on a zero
blind or when `hash_to_group` returns the identity (§7). -/
def OprfClient.blind (input : List Nat) (r : Scalar) :
    Except Error (BlindedElement × OprfClient) :=
  if r = 0 then .error .Input
  else
    let P := hashToGroup input (hashToGroupDST 0)
    if P = identityElement then .error .Input
    else .ok (⟨r * P⟩, ⟨r, input⟩)

/-- Modelled from the spec: `Server.evaluate(BE) = sk · BE` (§4.4). -/
def OprfServer.evaluate (srv : OprfServer) (be : BlindedElement) :
    EvaluationElement :=
  ⟨srv.sk * be.e⟩

/-- Modelled from the spec: the shared finalize hash of §4.4:
`Hash(I2OSP(len(input),2) || input || I2OSP(Ne,2) || serialize(N) ||
"Finalize")` for the unblinded element `N = r⁻¹ · EE`. -/
def finalizeCore (r : Scalar) (input : List Nat) (ee : Element) : List Nat :=
  Hash (i2osp input.length 2 ++ input ++ i2osp Ne 2 ++
    serializeElement (scalarInvert r * ee) ++ strBytes "Finalize")

/-- Modelled from the spec: `Client.finalize(input, EE)` of §4.4. -/
def OprfClient.finalize (st : OprfClient) (input : List Nat)
    (ee : EvaluationElement) : List Nat :=
  finalizeCore st.r input ee.e

/-- Modelled from the spec: the deterministic reference computation
`F_sk(input)` of §8.1: the finalize hash applied to
`serialize(sk · hash_to_group(input))`. -/
def referenceOutput (sk : Scalar) (input : List Nat) : List Nat :=
  Hash (i2osp input.length 2 ++ input ++ i2osp Ne 2 ++
    serializeElement (sk * hashToGroup input (hashToGroupDST 0)) ++
    strBytes "Finalize")

/-- The complete base-mode protocol run: blind, evaluate, finalize. -/
def oprfRun (sk r : Scalar) (input : List Nat) : Except Error (List Nat) :=
  (OprfClient.blind input r).map fun p =>
    p.2.finalize input (OprfServer.evaluate ⟨sk⟩ p.1)

/-- The base-mode run unblinds correctly: with a non-zero blind and a
non-identity hashed input, the output is the reference computation. -/
theorem oprfRun_eq_ok (sk r : Scalar) (input : List Nat) (hr : r ≠ 0)
    (hP : hashToGroup input (hashToGroupDST 0) ≠ identityElement) :
    oprfRun sk r input = .ok (referenceOutput sk input) := by
  have key : scalarInvert r * (sk * (r * hashToGroup input (hashToGroupDST 0)))
      = sk * hashToGroup input (hashToGroupDST 0) := by
    rw [scalarInvert_eq_inv hr]
    field_simp
    ring
  simp [oprfRun, OprfClient.blind, hr, hP, OprfClient.finalize,
    OprfServer.evaluate, finalizeCore, referenceOutput, Except.map, key]

/-- C1: the end-to-end OPRF protocol (blind with a non-zero blind, evaluate,
finalize) produces exactly the bytes of the deterministic reference
computation `Hash(I2OSP(len(input),2) || input || I2OSP(Ne,2) ||
serialize(sk · hash_to_group(input)) || "Finalize")`: the unblinding
`r⁻¹ · (sk · (r · H(input)))` recovers `sk · H(input)`. -/
theorem oprf_end_to_end_matches_reference (sk r : Scalar) (input : List Nat)
    (hr : r ≠ 0)
    (hP : hashToGroup input (hashToGroupDST 0) ≠ identityElement) :
    oprfRun sk r input = .ok (referenceOutput sk input) :=
  oprfRun_eq_ok sk r input hr hP

/-- Witness for C1 at `sk = 3`, `r = 2`, `input = [1]`. -/
theorem oprf_end_to_end_matches_reference_witness :
    oprfRun 3 2 [1] = .ok (referenceOutput 3 [1]) :=
  oprf_end_to_end_matches_reference 3 2 [1] (by decide) (by decide)

/-- C4: blinding independence: for a fixed key and input, two protocol runs
with distinct non-zero blinds produce identical output bytes. -/
theorem blinding_independence (sk r₁ r₂ : Scalar) (input : List Nat)
    (hne : r₁ ≠ r₂) (h1 : r₁ ≠ 0) (h2 : r₂ ≠ 0)
    (hP : hashToGroup input (hashToGroupDST 0) ≠ identityElement) :
    oprfRun sk r₁ input = oprfRun sk r₂ input := by
  rw [oprfRun_eq_ok sk r₁ input h1 hP, oprfRun_eq_ok sk r₂ input h2 hP]

/-- Witness for C4 at `sk = 3`, `r₁ = 2`, `r₂ = 5`, `input = [1]`. -/
theorem blinding_independence_witness : oprfRun 3 2 [1] = oprfRun 3 5 [1] :=
  blinding_independence 3 2 5 [1] (by decide) (by decide) (by decide)
    (by decide)

/-- C9: `OprfServer.evaluate` takes no randomness source: it is a pure
function of the server key and the blinded element, so equal blinded
elements always evaluate to equal evaluation elements. -/
theorem oprf_evaluate_deterministic (srv : OprfServer)
    (be₁ be₂ : BlindedElement) (h : be₁ = be₂) :
    srv.evaluate be₁ = srv.evaluate be₂ := by
  rw [h]

/-- Witness for C9 at `sk = 7`, `BE = 5`. -/
theorem oprf_evaluate_deterministic_witness :
    OprfServer.evaluate ⟨7⟩ ⟨5⟩ = OprfServer.evaluate ⟨7⟩ ⟨5⟩ :=
  oprf_evaluate_deterministic ⟨7⟩ ⟨5⟩ ⟨5⟩ rfl

/-- Modelled from the spec: the `"Seed-"` DST (§4.2). -/
def seedDST (mode : Nat) : List Nat := strBytes "Seed-" ++ contextString mode

/-- Modelled from the spec: the `"Composite-"` DST (§4.2). -/
def compositeDST (mode : Nat) : List Nat :=
  strBytes "Composite-" ++ contextString mode

/-- Modelled from the spec: the `"Challenge-"` DST (§4.2). -/
def challengeDST (mode : Nat) : List Nat :=
  strBytes "Challenge-" ++ contextString mode

/-- Modelled from the spec: the batch seed of the DLEQ engine (§4.5 step 1):
`seed = H(I2OSP(Ne,2) || serialize(pk) || I2OSP(len(seedDST),2) ||
seedDST)`. -/
def dleqSeed (mode : Nat) (pk : Element) : List Nat :=
  Hash (i2osp Ne 2 ++ serializeElement pk ++
    i2osp (seedDST mode).length 2 ++ seedDST mode)

/-- Modelled from the spec: the random-looking composite coefficient
`dᵢ = hash_to_scalar(seed || I2OSP(i,2), "Composite-"+ctx)` (§4.5 step 1). -/
def compositeScalar (mode : Nat) (pk : Element) (i : Nat) : Scalar :=
  hashToScalar (dleqSeed mode pk ++ i2osp i 2) (compositeDST mode)

/-- Modelled from the spec: the composite linear combination `Σ dᵢ · Eᵢ`
starting at index `i` (§4.5 step 2). -/
def linCombFrom (mode : Nat) (pk : Element) : Nat → List Element → Element
  | _, [] => 0
  | i, e :: rest => compositeScalar mode pk i * e + linCombFrom mode pk (i + 1) rest

/-- Modelled from the spec: the Fiat–Shamir challenge over the transcript
`Bm = generator, a0 = pk, a1 = M, a2 = Z, a3 = t_B, a4 = t_M`, each
length-prefixed by `I2OSP(Ne,2)` (§4.5 step 4). -/
def challenge (mode : Nat) (pk M Z tB tM : Element) : Scalar :=
  hashToScalar
    (i2osp Ne 2 ++ serializeElement generator ++
     i2osp Ne 2 ++ serializeElement pk ++
     i2osp Ne 2 ++ serializeElement M ++
     i2osp Ne 2 ++ serializeElement Z ++
     i2osp Ne 2 ++ serializeElement tB ++
     i2osp Ne 2 ++ serializeElement tM)
    (challengeDST mode)

/-- Modelled from the spec: `DLEQ.Prove` of §4.5 for a batch `C[], D[]`
with witness `k` (so `pk = k·B`, `D[i] = k·C[i]`); the nonce `t` drawn
from the RNG is passed explicitly.  Returns `(c, s = t − c·k)`. -/
def dleqProve (mode : Nat) (k : Scalar) (pk : Element) (C D : List Element)
    (t : Scalar) : Proof :=
  let M := linCombFrom mode pk 0 C
  let Z := linCombFrom mode pk 0 D
  let c := challenge mode pk M Z (t * generator) (t * M)
  ⟨c, t - c * k⟩

/-- Modelled from the spec: `DLEQ.Verify` of §4.5: recompute `M, Z`,
`t_B' = s·B + c·pk`, `t_M' = s·M + c·Z`, and accept iff the recomputed
challenge equals `c`. -/
def dleqVerify (mode : Nat) (pk : Element) (C D : List Element)
    (pf : Proof) : Bool :=
  let M := linCombFrom mode pk 0 C
  let Z := linCombFrom mode pk 0 D
  decide (challenge mode pk M Z (pf.s * generator + pf.c * pk)
    (pf.s * M + pf.c * Z) = pf.c)

/-- The composite combination is linear: scaling every element scales the
combination. -/
theorem linCombFrom_map_mul (mode : Nat) (pk : Element) (k : Scalar)
    (i : Nat) (C : List Element) :
    linCombFrom mode pk i (C.map fun e => k * e)
      = k * linCombFrom mode pk i C := by
  induction C generalizing i with
  | nil => simp [linCombFrom]
  | cons e rest ih =>
    simp only [List.map_cons, linCombFrom, ih]
    ring

/-- DLEQ completeness: an honestly generated batch proof under the matching
public key always verifies. -/
theorem dleqVerify_prove (mode : Nat) (k t : Scalar) (C : List Element) :
    dleqVerify mode (k * generator) C (C.map fun e => k * e)
      (dleqProve mode k (k * generator) C (C.map fun e => k * e) t) = true := by
  have hZ : linCombFrom mode (k * generator) 0 (C.map fun e => k * e)
      = k * linCombFrom mode (k * generator) 0 C :=
    linCombFrom_map_mul mode (k * generator) k 0 C
  set M := linCombFrom mode (k * generator) 0 C with hM
  set c := challenge mode (k * generator) M (k * M) (t * generator) (t * M)
    with hc
  have e1 : (t - c * k) * generator + c * (k * generator) = t * generator := by
    ring
  have e2 : (t - c * k) * M + c * (k * M) = t * M := by
    ring
  simp only [dleqVerify, dleqProve, hZ, ← hM, e1, e2, ← hc]
  simp

/-- Modelled from the spec: the verifiable-mode client state: blind `r`, the
original blinded element and the original input (§3; voprf module is not in
the sources). -/
structure VoprfClient where
  r : Scalar
  blindedElement : BlindedElement
  input : List Nat
deriving DecidableEq

/-- Modelled from the spec: the verifiable-mode server, holding `sk ≠ 0` and
`pk = sk · B` (§3, invariant 3). -/
structure VoprfServer where
  sk : Scalar
  pk : Element
deriving DecidableEq

/-- Modelled from the spec: `VoprfClient::blind` (§4.4 blind with mode
VOPRF = 1, recording `BE` in the state). -/
def VoprfClient.blind (input : List Nat) (r : Scalar) :
    Except Error (BlindedElement × VoprfClient) :=
  if r = 0 then .error .Input
  else
    let P := hashToGroup input (hashToGroupDST 1)
    if P = identityElement then .error .Input
    else .ok (⟨r * P⟩, ⟨r, ⟨r * P⟩, input⟩)

/-- The result of `VoprfServer::evaluate`: the evaluated message and the
DLEQ proof. -/
structure VoprfServerEvaluateResult where
  message : EvaluationElement
  proof : Proof
deriving DecidableEq

/-- Modelled from the spec: `VoprfServer::evaluate` (§4.5):
`EE = sk · BE`, `π ← DLEQ.Prove(sk, B, pk, BE, EE)`; the proof nonce `t`
drawn from the RNG is passed explicitly. -/
def VoprfServer.evaluate (srv : VoprfServer) (t : Scalar)
    (be : BlindedElement) : VoprfServerEvaluateResult :=
  ⟨⟨srv.sk * be.e⟩, dleqProve 1 srv.sk srv.pk [be.e] [srv.sk * be.e] t⟩

/-- Modelled from the spec: `VoprfClient::finalize` (§4.5): verify
`DLEQ.Verify(B, pk, BE, EE, π)`; on failure return the `ProofVerification`
error; else compute the output as in OPRF. -/
def VoprfClient.finalize (client : VoprfClient) (input : List Nat)
    (msg : EvaluationElement) (pf : Proof) (pk : Element) :
    Except Error (List Nat) :=
  if dleqVerify 1 pk [client.blindedElement.e] [msg.e] pf then
    .ok (finalizeCore client.r input msg.e)
  else .error .ProofVerification

/-- C2: `VoprfClient::finalize` first runs the DLEQ verification: on failure
it returns the `ProofVerification` error and yields no PRF output; on
success it computes the output as in OPRF; and an honestly generated proof
from `VoprfServer::evaluate` under the matching public key always
verifies. -/
theorem voprf_finalize_verifies (client : VoprfClient) (input : List Nat)
    (msg : EvaluationElement) (pf : Proof) (pk : Element) :
    (dleqVerify 1 pk [client.blindedElement.e] [msg.e] pf = false →
      client.finalize input msg pf pk = .error .ProofVerification) ∧
    (dleqVerify 1 pk [client.blindedElement.e] [msg.e] pf = true →
      client.finalize input msg pf pk
        = .ok (finalizeCore client.r input msg.e)) ∧
    (∀ sk t : Scalar, pk = sk * generator →
      msg = (VoprfServer.evaluate ⟨sk, pk⟩ t client.blindedElement).message →
      pf = (VoprfServer.evaluate ⟨sk, pk⟩ t client.blindedElement).proof →
      client.finalize input msg pf pk
        = .ok (finalizeCore client.r input msg.e)) := by
  refine ⟨fun h => ?_, fun h => ?_, fun sk t hpk hmsg hpf => ?_⟩
  · simp [VoprfClient.finalize, h]
  · simp [VoprfClient.finalize, h]
  · subst hpk hmsg hpf
    have h := dleqVerify_prove 1 sk t [client.blindedElement.e]
    simp only [List.map_cons, List.map_nil] at h
    simp [VoprfClient.finalize, VoprfServer.evaluate, h]

/-- Witness for C2: a failing verification at `pk = 4`, and an honest
evaluation at `sk = 3`, `t = 7`, `BE = 5`, both at concrete inputs. -/
theorem voprf_finalize_verifies_witness :
    VoprfClient.finalize ⟨2, ⟨5⟩, [1]⟩ [1] ⟨6⟩ ⟨0, 0⟩ 4
      = .error .ProofVerification ∧
    VoprfClient.finalize ⟨2, ⟨5⟩, [1]⟩ [1]
      (VoprfServer.evaluate ⟨3, 3 * generator⟩ 7 ⟨5⟩).message
      (VoprfServer.evaluate ⟨3, 3 * generator⟩ 7 ⟨5⟩).proof (3 * generator)
      = .ok (finalizeCore 2 [1]
        (VoprfServer.evaluate ⟨3, 3 * generator⟩ 7 ⟨5⟩).message.e) :=
  ⟨(voprf_finalize_verifies ⟨2, ⟨5⟩, [1]⟩ [1] ⟨6⟩ ⟨0, 0⟩ 4).1 (by decide),
   (voprf_finalize_verifies ⟨2, ⟨5⟩, [1]⟩ [1] _ _ (3 * generator)).2.2 3 7
     rfl rfl rfl⟩

/-- Modelled from the spec: `PreparedEvaluationElement`, the intermediate
`EE` carrier of the split batch API (§3, §4.7). -/
structure PreparedEvaluationElement where
  e : EvaluationElement
deriving DecidableEq

/-- The result of `VoprfServer::batch_evaluate_finish`: the evaluated
messages, in input order, and the single batch proof. -/
structure VoprfServerBatchEvaluateFinishResult where
  messages : List EvaluationElement
  proof : Proof
deriving DecidableEq

/-- Modelled from the spec: `VoprfServer::batch_evaluate_prepare` (§4.7):
performs the `sk · BE` multiplications, no RNG needed, preserving input
order. -/
def VoprfServer.batch_evaluate_prepare (srv : VoprfServer)
    (bes : List BlindedElement) : List PreparedEvaluationElement :=
  bes.map fun be => ⟨⟨srv.sk * be.e⟩⟩

/-- Modelled from the spec: `VoprfServer::batch_evaluate_finish` (§4.7):
checks the batch is non-empty and the lengths match, then returns the
prepared messages in input order together with one DLEQ proof over the
whole batch. -/
def VoprfServer.batch_evaluate_finish (srv : VoprfServer) (t : Scalar)
    (bes : List BlindedElement) (prepared : List PreparedEvaluationElement) :
    Except Error VoprfServerBatchEvaluateFinishResult :=
  if bes.isEmpty then .error .Batch
  else if bes.length ≠ prepared.length then .error .Batch
  else
    .ok ⟨prepared.map PreparedEvaluationElement.e,
      dleqProve 1 srv.sk srv.pk (bes.map BlindedElement.e)
        (prepared.map fun p => p.e.e) t⟩

/-- Modelled from the spec: the `VoprfServer::batch_evaluate` convenience
wrapper combining prepare and finish (§4.7). -/
def VoprfServer.batch_evaluate (srv : VoprfServer) (t : Scalar)
    (bes : List BlindedElement) :
    Except Error VoprfServerBatchEvaluateFinishResult :=
  srv.batch_evaluate_finish t bes (srv.batch_evaluate_prepare bes)

/-- C3: for a non-empty batch, batch evaluation (the prepare/finish split or
the convenience wrapper) succeeds, returns the messages in input order with
the `i`-th message equal to the single-shot `evaluate` message for the
`i`-th blinded element, and its single proof verifies. -/
theorem batch_evaluate_consistent (srv : VoprfServer) (t : Scalar)
    (bes : List BlindedElement) (hpk : srv.pk = srv.sk * generator)
    (hne : bes ≠ []) :
    ∃ res : VoprfServerBatchEvaluateFinishResult,
      srv.batch_evaluate t bes = .ok res ∧
      srv.batch_evaluate t bes
        = srv.batch_evaluate_finish t bes (srv.batch_evaluate_prepare bes) ∧
      res.messages = bes.map (fun be => (srv.evaluate t be).message) ∧
      dleqVerify 1 srv.pk (bes.map BlindedElement.e)
        (res.messages.map EvaluationElement.e) res.proof = true ∧
      ∀ i (h : i < bes.length) (h2 : i < res.messages.length),
        res.messages.get ⟨i, h2⟩ = (srv.evaluate t (bes.get ⟨i, h⟩)).message := by
  have hempty : bes.isEmpty = false := by
    cases bes with
    | nil => exact absurd rfl hne
    | cons a l => rfl
  refine ⟨⟨bes.map fun be => ⟨srv.sk * be.e⟩,
    dleqProve 1 srv.sk srv.pk (bes.map BlindedElement.e)
      ((bes.map BlindedElement.e).map fun e => srv.sk * e) t⟩,
    ?_, rfl, ?_, ?_, ?_⟩
  · simp [VoprfServer.batch_evaluate, VoprfServer.batch_evaluate_finish,
      VoprfServer.batch_evaluate_prepare, hempty, List.map_map,
      Function.comp_def]
  · simp [VoprfServer.evaluate]
  · have h := dleqVerify_prove 1 srv.sk t (bes.map BlindedElement.e)
    rw [hpk]
    simpa [List.map_map, Function.comp] using h
  · intro i h h2
    simp [List.get_eq_getElem, List.getElem_map, VoprfServer.evaluate]

/-- Witness for C3 at `sk = 3`, `t = 7`, batch `[5, 11]`. -/
theorem batch_evaluate_consistent_witness :
    ∃ res : VoprfServerBatchEvaluateFinishResult,
      VoprfServer.batch_evaluate ⟨3, 3 * generator⟩ 7 [⟨5⟩, ⟨11⟩] = .ok res ∧
      VoprfServer.batch_evaluate ⟨3, 3 * generator⟩ 7 [⟨5⟩, ⟨11⟩]
        = VoprfServer.batch_evaluate_finish ⟨3, 3 * generator⟩ 7 [⟨5⟩, ⟨11⟩]
          (VoprfServer.batch_evaluate_prepare ⟨3, 3 * generator⟩ [⟨5⟩, ⟨11⟩]) ∧
      res.messages = [⟨5⟩, ⟨11⟩].map
        (fun be => (VoprfServer.evaluate ⟨3, 3 * generator⟩ 7 be).message) ∧
      dleqVerify 1 (3 * generator) ([⟨5⟩, ⟨11⟩].map BlindedElement.e)
        (res.messages.map EvaluationElement.e) res.proof = true ∧
      ∀ i (h : i < ([⟨5⟩, ⟨11⟩] : List BlindedElement).length)
        (h2 : i < res.messages.length),
        res.messages.get ⟨i, h2⟩
          = (VoprfServer.evaluate ⟨3, 3 * generator⟩ 7
              (([⟨5⟩, ⟨11⟩] : List BlindedElement).get ⟨i, h⟩)).message :=
  batch_evaluate_consistent ⟨3, 3 * generator⟩ 7 [⟨5⟩, ⟨11⟩] rfl (by decide)

/-- Modelled from the spec: `VoprfClient::batch_finalize` (§4.5, invariant
5): inputs, states and messages must be supplied in matching order and
count; the single batch proof is verified once, then every entry is
finalized as in OPRF. -/
def VoprfClient.batch_finalize (inputs : List (List Nat))
    (clients : List VoprfClient) (msgs : List EvaluationElement)
    (pf : Proof) (pk : Element) : Except Error (List (List Nat)) :=
  if inputs.length ≠ clients.length ∨ clients.length ≠ msgs.length then
    .error .Batch
  else if msgs.isEmpty then .error .Batch
  else if dleqVerify 1 pk (clients.map fun c => c.blindedElement.e)
      (msgs.map EvaluationElement.e) pf then
    .ok ((inputs.zip (clients.zip msgs)).map fun p =>
      finalizeCore p.2.1.r p.1 p.2.2.e)
  else .error .ProofVerification

/-- C10: called with `n ≥ 1` inputs, `n` client states, `n` messages, and a
proof that verifies, `batch_finalize` succeeds and returns exactly `n`
outputs, the `i`-th being the finalization of the `i`-th input, state and
message. -/
theorem batch_finalize_order (inputs : List (List Nat))
    (clients : List VoprfClient) (msgs : List EvaluationElement)
    (pf : Proof) (pk : Element) (n : Nat) (hi : inputs.length = n)
    (hc : clients.length = n) (hm : msgs.length = n) (hn : 0 < n)
    (hv : dleqVerify 1 pk (clients.map fun c => c.blindedElement.e)
      (msgs.map EvaluationElement.e) pf = true) :
    ∃ outs, VoprfClient.batch_finalize inputs clients msgs pf pk = .ok outs ∧
      outs.length = n ∧
      ∀ i (h1 : i < inputs.length) (h2 : i < clients.length)
        (h3 : i < msgs.length) (ho : i < outs.length),
        outs.get ⟨i, ho⟩ = finalizeCore (clients.get ⟨i, h2⟩).r
          (inputs.get ⟨i, h1⟩) (msgs.get ⟨i, h3⟩).e := by
  have hempty : msgs.isEmpty = false := by
    cases msgs with
    | nil => simp at hm; omega
    | cons a l => rfl
  refine ⟨(inputs.zip (clients.zip msgs)).map fun p =>
      finalizeCore p.2.1.r p.1 p.2.2.e, ?_, ?_, ?_⟩
  · simp [VoprfClient.batch_finalize, hi, hc, hm, hempty, hv]
  · simp [hi, hc, hm]
  · intro i h1 h2 h3 ho
    simp [List.get_eq_getElem, List.getElem_map, List.getElem_zip]

/-- Witness for C10: a verifying batch of two honest evaluations at
`sk = 3`, `t = 7`, blinds `2` and `5`. -/
theorem batch_finalize_order_witness :
    ∃ outs, VoprfClient.batch_finalize [[1], [2]]
      [⟨2, ⟨5⟩, [1]⟩, ⟨5, ⟨11⟩, [2]⟩] [⟨3 * 5⟩, ⟨3 * 11⟩]
      (dleqProve 1 3 (3 * generator) [5, 11] [3 * 5, 3 * 11] 7)
      (3 * generator) = .ok outs ∧
      outs.length = 2 ∧
      ∀ i (h1 : i < ([[1], [2]] : List (List Nat)).length)
        (h2 : i < ([⟨2, ⟨5⟩, [1]⟩, ⟨5, ⟨11⟩, [2]⟩] : List VoprfClient).length)
        (h3 : i < ([⟨3 * 5⟩, ⟨3 * 11⟩] : List EvaluationElement).length)
        (ho : i < outs.length),
        outs.get ⟨i, ho⟩ = finalizeCore
          (([⟨2, ⟨5⟩, [1]⟩, ⟨5, ⟨11⟩, [2]⟩] : List VoprfClient).get ⟨i, h2⟩).r
          (([[1], [2]] : List (List Nat)).get ⟨i, h1⟩)
          (([⟨3 * 5⟩, ⟨3 * 11⟩] : List EvaluationElement).get ⟨i, h3⟩).e :=
  batch_finalize_order [[1], [2]] [⟨2, ⟨5⟩, [1]⟩, ⟨5, ⟨11⟩, [2]⟩]
    [⟨3 * 5⟩, ⟨3 * 11⟩]
    (dleqProve 1 3 (3 * generator) [5, 11] [3 * 5, 3 * 11] 7)
    (3 * generator) 2 rfl rfl rfl (by decide) (by decide)

/-- Modelled from the spec: the partially-oblivious-mode client state (§3;
poprf module is not in the sources). -/
structure PoprfClient where
  r : Scalar
  blindedElement : BlindedElement
  input : List Nat
deriving DecidableEq

/-- Modelled from the spec: the partially-oblivious-mode server (§3). -/
structure PoprfServer where
  sk : Scalar
  pk : Element
deriving DecidableEq

/-- Modelled from the spec: the info tweak
`m = hash_to_scalar("Info" || I2OSP(len(info),2) || info,
"HashToScalar-"+ctx)` (§4.6). -/
def tweakScalar (info : List Nat) : Scalar :=
  hashToScalar (strBytes "Info" ++ i2osp info.length 2 ++ info)
    (hashToScalarDST 2)

/-- The result of `PoprfServer::evaluate`. -/
structure PoprfServerEvaluateResult where
  message : EvaluationElement
  proof : Proof
deriving DecidableEq

/-- Modelled from the spec: `PoprfServer::evaluate` (§4.6, §6): rejects an
empty or overlong info with `Input`, computes `t = sk + m` and fails with
`Input` when `t = 0`; otherwise `EE = t⁻¹·BE` and a DLEQ proof for
`(B, tweakedKey = t·B, EE, BE)`.  The proof nonce drawn from the RNG is
passed explicitly. -/
def PoprfServer.evaluate (srv : PoprfServer) (nonce : Scalar)
    (be : BlindedElement) (info : List Nat) :
    Except Error PoprfServerEvaluateResult :=
  if info.length = 0 ∨ 2 ^ 16 ≤ info.length then .error .Input
  else
    let m := tweakScalar info
    let tk := srv.sk + m
    if tk = 0 then .error .Input
    else
      let ee := scalarInvert tk * be.e
      .ok ⟨⟨ee⟩, dleqProve 2 tk (tk * generator) [ee] [be.e] nonce⟩

/-- Modelled from the spec: `PoprfClient::finalize` (§4.6): rejects an empty
or overlong info with `Input`, recomputes `tweakedKey = pk + m·B` and
rejects `Input` when it is the identity, verifies the DLEQ proof for
`(B, tweakedKey, EE, BE)`, then hashes the unblinded element together with
the info. -/
def PoprfClient.finalize (client : PoprfClient) (input : List Nat)
    (msg : EvaluationElement) (pf : Proof) (pk : Element)
    (info : List Nat) : Except Error (List Nat) :=
  if info.length = 0 ∨ 2 ^ 16 ≤ info.length then .error .Input
  else
    let m := tweakScalar info
    let tweakedKey := pk + m * generator
    if tweakedKey = identityElement then .error .Input
    else if dleqVerify 2 tweakedKey [msg.e] [client.blindedElement.e] pf then
      .ok (Hash (i2osp input.length 2 ++ input ++ i2osp info.length 2 ++
        info ++ i2osp Ne 2 ++
        serializeElement (scalarInvert client.r * msg.e) ++
        strBytes "Finalize"))
    else .error .ProofVerification

/-- C7: in POPRF mode, with `m` the info tweak and `t = sk + m`, the
server's evaluate fails with `Input` whenever `t = 0`; the client's
finalize rejects with `Input` when the recomputed `tweakedKey = pk + m·B`
is the identity; otherwise (for admissible info) evaluate returns
`EE = t⁻¹·BE`. -/
theorem poprf_tweak_behaviour (srv : PoprfServer) (nonce : Scalar)
    (be : BlindedElement) (info : List Nat) :
    (srv.sk + tweakScalar info = 0 →
      srv.evaluate nonce be info = .error .Input) ∧
    (∀ (client : PoprfClient) (input : List Nat) (msg : EvaluationElement)
      (pf : Proof),
      srv.pk + tweakScalar info * generator = identityElement →
      client.finalize input msg pf srv.pk info = .error .Input) ∧
    (srv.sk + tweakScalar info ≠ 0 → info.length ≠ 0 →
      info.length < 2 ^ 16 →
      ∃ pf, srv.evaluate nonce be info
        = .ok ⟨⟨(srv.sk + tweakScalar info)⁻¹ * be.e⟩, pf⟩) := by
  refine ⟨fun ht => ?_, fun client input msg pf hid => ?_,
    fun ht h0 hlen => ?_⟩
  · simp [PoprfServer.evaluate, ht]
  · simp [PoprfClient.finalize, hid]
  · refine ⟨dleqProve 2 (srv.sk + tweakScalar info)
      ((srv.sk + tweakScalar info) * generator)
      [scalarInvert (srv.sk + tweakScalar info) * be.e] [be.e] nonce, ?_⟩
    have hc : ¬(info.length = 0 ∨ 2 ^ 16 ≤ info.length) := by omega
    simp [PoprfServer.evaluate, hc, ht, scalarInvert_eq_inv ht]
    refine ⟨fun h => ?_, by omega⟩
    subst h
    simp at h0

/-- Witness for C7: `tweakScalar [5] = 28`, so `sk = 69` makes `t = 0` and
evaluate fails; the matching public key makes finalize reject; and `sk = 3`
evaluates to the inverse-tweak multiple. -/
theorem poprf_tweak_behaviour_witness :
    PoprfServer.evaluate ⟨69, 69 * generator⟩ 7 ⟨5⟩ [5] = .error .Input ∧
    PoprfClient.finalize ⟨2, ⟨5⟩, [1]⟩ [1] ⟨6⟩ ⟨0, 0⟩ (69 * generator) [5]
      = .error .Input ∧
    ∃ pf, PoprfServer.evaluate ⟨3, 3 * generator⟩ 7 ⟨5⟩ [5]
      = .ok ⟨⟨(3 + tweakScalar [5])⁻¹ * 5⟩, pf⟩ :=
  ⟨(poprf_tweak_behaviour ⟨69, 69 * generator⟩ 7 ⟨5⟩ [5]).1 (by decide),
   (poprf_tweak_behaviour ⟨69, 69 * generator⟩ 7 ⟨5⟩ [5]).2.1
     ⟨2, ⟨5⟩, [1]⟩ [1] ⟨6⟩ ⟨0, 0⟩ (by decide),
   (poprf_tweak_behaviour ⟨3, 3 * generator⟩ 7 ⟨5⟩ [5]).2.2 (by decide)
     (by decide) (by decide)⟩

/-- Modelled from the spec: the `"DeriveKeyPair"` DST (§4.3). -/
def deriveKeyDST (mode : Nat) : List Nat :=
  strBytes "DeriveKeyPair" ++ contextString mode

/-- Modelled from the spec: one candidate of the key-derivation loop (§4.3):
`hash_to_scalar(seed || I2OSP(len(info),2) || info || I2OSP(counter,1),
dst)`. -/
def deriveKeyScalar (mode : Nat) (seed info : List Nat) (counter : Nat) :
    Scalar :=
  hashToScalar (seed ++ i2osp info.length 2 ++ info ++ i2osp counter 1)
    (deriveKeyDST mode)

/-- Modelled from the spec: the counter loop of `derive_key` (§4.3), with an
explicit remaining-iterations fuel; returns the first non-zero candidate. -/
def deriveKeyLoop (mode : Nat) (seed info : List Nat) :
    Nat → Nat → Except Error Scalar
  | _, 0 => .error .DeriveKeyPair
  | c, fuel + 1 =>
    if deriveKeyScalar mode seed info c = 0 then
      deriveKeyLoop mode seed info (c + 1) fuel
    else .ok (deriveKeyScalar mode seed info c)

/-- Modelled from the spec: `derive_key` (§4.3; common module is not in the
sources): requires a seed of at least `Ns` bytes and an info of at most
`2^16 − 1` bytes, then tries counters `0..255`. -/
def derive_key (mode : Nat) (seed info : List Nat) : Except Error Scalar :=
  if seed.length < Ns ∨ 2 ^ 16 ≤ info.length then .error .Input
  else deriveKeyLoop mode seed info 0 256

/-- If every candidate in the remaining window is zero, the loop fails. -/
theorem deriveKeyLoop_all_zero (mode : Nat) (seed info : List Nat)
    (fuel c : Nat)
    (h : ∀ j, j < fuel → deriveKeyScalar mode seed info (c + j) = 0) :
    deriveKeyLoop mode seed info c fuel = .error .DeriveKeyPair := by
  induction fuel generalizing c with
  | zero => rfl
  | succ n ih =>
    have h0 : deriveKeyScalar mode seed info c = 0 := by
      simpa using h 0 (by omega)
    rw [deriveKeyLoop, if_pos h0]
    exact ih (c + 1) fun j hj => by
      have hj1 := h (j + 1) (by omega)
      rw [show c + 1 + j = c + (j + 1) by omega]
      exact hj1

/-- The loop returns the candidate at the first non-zero counter in
range. -/
theorem deriveKeyLoop_first_nonzero (mode : Nat) (seed info : List Nat)
    (fuel c k : Nat) (hk : k < fuel)
    (hzero : ∀ j, j < k → deriveKeyScalar mode seed info (c + j) = 0)
    (hnz : deriveKeyScalar mode seed info (c + k) ≠ 0) :
    deriveKeyLoop mode seed info c fuel
      = .ok (deriveKeyScalar mode seed info (c + k)) := by
  induction fuel generalizing c k with
  | zero => omega
  | succ n ih =>
    cases k with
    | zero =>
      have h0 : deriveKeyScalar mode seed info c ≠ 0 := by simpa using hnz
      rw [deriveKeyLoop, if_neg h0]
      simp
    | succ m =>
      have h0 : deriveKeyScalar mode seed info c = 0 := by
        simpa using hzero 0 (by omega)
      rw [deriveKeyLoop, if_pos h0,
        show c + (m + 1) = c + 1 + m by omega]
      exact ih (c + 1) m (by omega)
        (fun j hj => by
          have hj1 := hzero (j + 1) (by omega)
          rw [show c + 1 + j = c + (j + 1) by omega]
          exact hj1)
        (by rw [show c + 1 + m = c + (m + 1) by omega]; exact hnz)

/-- C6: `derive_key`, on a seed of at least `Ns` bytes and info of at most
`2^16 − 1` bytes, iterates a counter from 0 to 255 computing
`hash_to_scalar(seed || I2OSP(len(info),2) || info || I2OSP(counter,1),
"DeriveKeyPair" || contextString)` and deterministically returns the first
non-zero scalar; if all 256 counters yield zero it fails with the
`DeriveKeyPair` error. -/
theorem derive_key_spec (mode : Nat) (seed info : List Nat)
    (hseed : Ns ≤ seed.length) (hinfo : info.length < 2 ^ 16) :
    ((∀ c, c < 256 → deriveKeyScalar mode seed info c = 0) →
      derive_key mode seed info = .error .DeriveKeyPair) ∧
    (∀ c, c < 256 → deriveKeyScalar mode seed info c ≠ 0 →
      (∀ j, j < c → deriveKeyScalar mode seed info j = 0) →
      derive_key mode seed info = .ok (deriveKeyScalar mode seed info c)) := by
  have hpre : ¬(seed.length < Ns ∨ 2 ^ 16 ≤ info.length) := by omega
  constructor
  · intro h
    rw [derive_key, if_neg hpre]
    exact deriveKeyLoop_all_zero mode seed info 256 0
      fun j hj => by simpa using h j hj
  · intro c hc hnz hzero
    rw [derive_key, if_neg hpre]
    have := deriveKeyLoop_first_nonzero mode seed info 256 0 c hc
      (fun j hj => by simpa using hzero j hj) (by simpa using hnz)
    simpa using this

/-- Witness for C6 at `mode = 0`, `seed = [1, 2]`, `info = [3]`: the counter
0 candidate is already non-zero. -/
theorem derive_key_spec_witness :
    derive_key 0 [1, 2] [3] = .ok (deriveKeyScalar 0 [1, 2] [3] 0) :=
  (derive_key_spec 0 [1, 2] [3] (by decide) (by decide)).2 0 (by decide)
    (by decide) (fun j hj => absurd hj (by omega))

/-- Modelled from the spec: `VoprfServer::new` (§4.4/§4.5): the non-zero
secret key sampled from the RNG is passed explicitly; the public key is
derived as `sk · B` at construction (§3). -/
def VoprfServer.new (sk : Scalar) : VoprfServer := ⟨sk, sk * generator⟩

/-- Modelled from the spec: deserializing a server from its `Ns`-byte wire
form (§6): the secret key, rejected when zero (invariant 2), with the
public key re-derived as `sk · B`. -/
def VoprfServer.deserialize (bs : List Nat) : Except Error VoprfServer :=
  (deserializeScalar bs).bind fun sk =>
    if sk = 0 then .error .Deserialization else .ok ⟨sk, sk * generator⟩

/-- Modelled from the spec: `VoprfServer::get_public_key`. -/
def VoprfServer.get_public_key (srv : VoprfServer) : Element := srv.pk

/-- C8: however a server is constructed — `new` with a sampled non-zero key
or deserialization of a stored key — its public key equals `sk · B` with
`sk ≠ 0`.  The model's operations take the server by value and never
return a modified server, so the invariant is preserved by every
operation. -/
theorem server_public_key_invariant :
    (∀ sk : Scalar, sk ≠ 0 →
      (VoprfServer.new sk).get_public_key = (VoprfServer.new sk).sk * generator
        ∧ (VoprfServer.new sk).sk ≠ 0) ∧
    (∀ (bs : List Nat) (srv : VoprfServer),
      VoprfServer.deserialize bs = .ok srv →
      srv.get_public_key = srv.sk * generator ∧ srv.sk ≠ 0) := by
  constructor
  · intro sk hsk
    exact ⟨rfl, hsk⟩
  · intro bs srv h
    unfold VoprfServer.deserialize at h
    cases hds : deserializeScalar bs with
    | error e => rw [hds] at h; cases h
    | ok sk =>
      rw [hds] at h
      by_cases hz : sk = 0
      · simp [Except.bind, hz] at h
      · simp [Except.bind, hz] at h
        rw [← h]
        exact ⟨rfl, hz⟩

/-- Witness for C8: a fresh server at `sk = 3` and a deserialized server
from the bytes `[0, 5]`. -/
theorem server_public_key_invariant_witness :
    ((VoprfServer.new 3).get_public_key = (VoprfServer.new 3).sk * generator
      ∧ (VoprfServer.new 3).sk ≠ 0) ∧
    ((⟨5, 5 * generator⟩ : VoprfServer).get_public_key
        = (⟨5, 5 * generator⟩ : VoprfServer).sk * generator
      ∧ (⟨5, 5 * generator⟩ : VoprfServer).sk ≠ 0) :=
  ⟨server_public_key_invariant.1 3 (by decide),
   server_public_key_invariant.2 [0, 5] ⟨5, 5 * generator⟩ (by decide)⟩

/-- Modelled from the spec: declared wire length of a scalar (§6). -/
def ScalarLen : Nat := Ns

/-- Modelled from the spec: declared wire length of an element (§6). -/
def ElementLen : Nat := Ne

/-- Modelled from the spec: declared wire length of a `BlindedElement`
(§6). -/
def BlindedElementLen : Nat := Ne

/-- Modelled from the spec: declared wire length of an `EvaluationElement`
(§6). -/
def EvaluationElementLen : Nat := Ne

/-- Modelled from the spec: declared wire length of a `Proof`: `2·Ns`
(§6). -/
def ProofLen : Nat := 2 * Ns

/-- Modelled from the spec: declared wire length of an `OprfServer` (§6). -/
def OprfServerLen : Nat := Ns

/-- Modelled from the spec: declared wire length of a `VoprfServer` (§6). -/
def VoprfServerLen : Nat := Ns

/-- Modelled from the spec: declared wire length of an `OprfClient`:
`Ns` plus the 2-byte-prefixed input (§6). -/
def OprfClientLen (inputLen : Nat) : Nat := Ns + 2 + inputLen

/-- Modelled from the spec: declared wire length of a `VoprfClient`:
`Ns + Ne` plus the 2-byte-prefixed input (§6). -/
def VoprfClientLen (inputLen : Nat) : Nat := Ns + Ne + 2 + inputLen

/-- Modelled from the spec: declared wire length of a `PoprfClient` (§6). -/
def PoprfClientLen (inputLen : Nat) : Nat := Ns + Ne + 2 + inputLen

/-- Modelled from the spec: `BlindedElement` wire form: its element (§6). -/
def BlindedElement.serialize (x : BlindedElement) : List Nat :=
  serializeElement x.e

/-- Modelled from the spec: deserialize a `BlindedElement` (§6). -/
def BlindedElement.deserialize (bs : List Nat) :
    Except Error BlindedElement :=
  (deserializeElement bs).map fun e => ⟨e⟩

/-- Modelled from the spec: `EvaluationElement` wire form (§6). -/
def EvaluationElement.serialize (x : EvaluationElement) : List Nat :=
  serializeElement x.e

/-- Modelled from the spec: deserialize an `EvaluationElement` (§6). -/
def EvaluationElement.deserialize (bs : List Nat) :
    Except Error EvaluationElement :=
  (deserializeElement bs).map fun e => ⟨e⟩

/-- Modelled from the spec: `Proof` wire form `c ‖ s` (§6). -/
def Proof.serialize (x : Proof) : List Nat :=
  serializeScalar x.c ++ serializeScalar x.s

/-- Modelled from the spec: deserialize a `Proof` from `2·Ns` bytes (§6). -/
def Proof.deserialize : List Nat → Except Error Proof
  | [a, b, c, d] =>
    (deserializeScalar [a, b]).bind fun x =>
      (deserializeScalar [c, d]).map fun y => ⟨x, y⟩
  | _ => .error .Deserialization

/-- Modelled from the spec: `OprfClient` wire form `r ‖ input` with the
input length-prefixed by 2 bytes (§6). -/
def OprfClient.serialize (st : OprfClient) : List Nat :=
  serializeScalar st.r ++ i2osp st.input.length 2 ++ st.input

/-- Modelled from the spec: deserialize an `OprfClient` (§6). -/
def OprfClient.deserialize : List Nat → Except Error OprfClient
  | a :: b :: l1 :: l0 :: rest =>
    (deserializeScalar [a, b]).bind fun r =>
      if rest.length = l1 * 256 + l0 then .ok ⟨r, rest⟩
      else .error .Deserialization
  | _ => .error .Deserialization

/-- Modelled from the spec: `VoprfClient` wire form `r ‖ BE ‖ input` with
the input length-prefixed by 2 bytes (§6). -/
def VoprfClient.serialize (st : VoprfClient) : List Nat :=
  serializeScalar st.r ++ serializeElement st.blindedElement.e ++
    i2osp st.input.length 2 ++ st.input

/-- Modelled from the spec: deserialize a `VoprfClient` (§6). -/
def VoprfClient.deserialize : List Nat → Except Error VoprfClient
  | a :: b :: c :: d :: l1 :: l0 :: rest =>
    (deserializeScalar [a, b]).bind fun r =>
      (deserializeElement [c, d]).bind fun e =>
        if rest.length = l1 * 256 + l0 then .ok ⟨r, ⟨e⟩, rest⟩
        else .error .Deserialization
  | _ => .error .Deserialization

/-- Modelled from the spec: `PoprfClient` wire form `r ‖ BE ‖ input` (§6). -/
def PoprfClient.serialize (st : PoprfClient) : List Nat :=
  serializeScalar st.r ++ serializeElement st.blindedElement.e ++
    i2osp st.input.length 2 ++ st.input

/-- Modelled from the spec: deserialize a `PoprfClient` (§6). -/
def PoprfClient.deserialize : List Nat → Except Error PoprfClient
  | a :: b :: c :: d :: l1 :: l0 :: rest =>
    (deserializeScalar [a, b]).bind fun r =>
      (deserializeElement [c, d]).bind fun e =>
        if rest.length = l1 * 256 + l0 then .ok ⟨r, ⟨e⟩, rest⟩
        else .error .Deserialization
  | _ => .error .Deserialization

/-- Modelled from the spec: `OprfServer` wire form: its secret key (§6). -/
def OprfServer.serialize (srv : OprfServer) : List Nat :=
  serializeScalar srv.sk

/-- Modelled from the spec: deserialize an `OprfServer`; a zero key is
rejected (invariant 2). -/
def OprfServer.deserialize (bs : List Nat) : Except Error OprfServer :=
  (deserializeScalar bs).bind fun sk =>
    if sk = 0 then .error .Deserialization else .ok ⟨sk⟩

/-- Modelled from the spec: `VoprfServer` wire form: its secret key (§6). -/
def VoprfServer.serialize (srv : VoprfServer) : List Nat :=
  serializeScalar srv.sk

/-- Unfolding `I2OSP` at width 2. -/
theorem i2osp_two (n : Nat) : i2osp n 2 = [n / 256 % 256, n % 256] := by
  simp [i2osp, List.range_succ]

/-- The toy scalar encoding is the pair `[0, val]`. -/
theorem serializeScalar_pair (s : Scalar) : serializeScalar s = [0, s.val] := by
  have h : s.val < 97 := ZMod.val_lt s
  rw [serializeScalar, show Ns = 2 from rfl, i2osp_two]
  refine congrArg₂ _ (by omega) (congrArg₂ _ (by omega) rfl)

/-- The toy element encoding is the pair `[0, val]`. -/
theorem serializeElement_pair (e : Element) :
    serializeElement e = [0, e.val] := by
  have h : e.val < 97 := ZMod.val_lt e
  rw [serializeElement, show Ne = 2 from rfl, i2osp_two]
  refine congrArg₂ _ (by omega) (congrArg₂ _ (by omega) rfl)

/-- Scalar serialization round-trips. -/
theorem scalar_round (s : Scalar) :
    deserializeScalar (serializeScalar s) = .ok s := by
  have h : s.val < 97 := ZMod.val_lt s
  have hcast : ((0 * 256 + s.val : Nat) : Scalar) = s := by
    simpa using ZMod.natCast_rightInverse (n := 97) s
  rw [serializeScalar_pair, deserializeScalar, if_pos (by omega), hcast]

/-- Element serialization round-trips away from the identity. -/
theorem element_round (e : Element) (he : e ≠ identityElement) :
    deserializeElement (serializeElement e) = .ok e := by
  have h : e.val < 97 := ZMod.val_lt e
  have hz : e.val ≠ 0 := fun h0 => he (by
    have := ZMod.val_eq_zero e
    exact this.mp h0)
  have hcast : ((0 * 256 + e.val : Nat) : Element) = e := by
    simpa using ZMod.natCast_rightInverse (n := 97) e
  rw [serializeElement_pair, deserializeElement,
    if_pos (by constructor <;> omega), hcast]

/-- Proof serialization round-trips. -/
theorem proof_round (pf : Proof) :
    Proof.deserialize (Proof.serialize pf) = .ok pf := by
  have hc : deserializeScalar [0, pf.c.val] = .ok pf.c := by
    rw [← serializeScalar_pair]; exact scalar_round pf.c
  have hs : deserializeScalar [0, pf.s.val] = .ok pf.s := by
    rw [← serializeScalar_pair]; exact scalar_round pf.s
  rw [Proof.serialize, serializeScalar_pair, serializeScalar_pair]
  show Proof.deserialize [0, pf.c.val, 0, pf.s.val] = .ok pf
  rw [Proof.deserialize, hc, hs]
  rfl

/-- OprfClient serialization round-trips for inputs below `2^16` bytes. -/
theorem oprf_client_round (st : OprfClient) (h : st.input.length < 2 ^ 16) :
    OprfClient.deserialize (OprfClient.serialize st) = .ok st := by
  have hr : deserializeScalar [0, st.r.val] = .ok st.r := by
    rw [← serializeScalar_pair]; exact scalar_round st.r
  rw [OprfClient.serialize, serializeScalar_pair, i2osp_two]
  show OprfClient.deserialize (0 :: st.r.val :: (st.input.length / 256 % 256)
    :: (st.input.length % 256) :: st.input) = .ok st
  rw [OprfClient.deserialize, hr]
  show (if st.input.length = st.input.length / 256 % 256 * 256 +
      st.input.length % 256 then Except.ok (⟨st.r, st.input⟩ : OprfClient)
    else Except.error Error.Deserialization) = .ok st
  rw [if_pos (by omega)]

/-- VoprfClient serialization round-trips when the recorded blinded element
is not the identity and the input is below `2^16` bytes. -/
theorem voprf_client_round (st : VoprfClient)
    (he : st.blindedElement.e ≠ identityElement)
    (h : st.input.length < 2 ^ 16) :
    VoprfClient.deserialize (VoprfClient.serialize st) = .ok st := by
  have hr : deserializeScalar [0, st.r.val] = .ok st.r := by
    rw [← serializeScalar_pair]; exact scalar_round st.r
  have hb : deserializeElement [0, st.blindedElement.e.val]
      = .ok st.blindedElement.e := by
    rw [← serializeElement_pair]; exact element_round _ he
  rw [VoprfClient.serialize, serializeScalar_pair, serializeElement_pair,
    i2osp_two]
  show VoprfClient.deserialize (0 :: st.r.val :: 0 :: st.blindedElement.e.val
    :: (st.input.length / 256 % 256) :: (st.input.length % 256) :: st.input)
    = .ok st
  rw [VoprfClient.deserialize, hr, hb]
  show (if st.input.length = st.input.length / 256 % 256 * 256 +
      st.input.length % 256 then
      Except.ok (⟨st.r, ⟨st.blindedElement.e⟩, st.input⟩ : VoprfClient)
    else Except.error Error.Deserialization) = .ok st
  rw [if_pos (by omega)]

/-- PoprfClient serialization round-trips under the same conditions. -/
theorem poprf_client_round (st : PoprfClient)
    (he : st.blindedElement.e ≠ identityElement)
    (h : st.input.length < 2 ^ 16) :
    PoprfClient.deserialize (PoprfClient.serialize st) = .ok st := by
  have hr : deserializeScalar [0, st.r.val] = .ok st.r := by
    rw [← serializeScalar_pair]; exact scalar_round st.r
  have hb : deserializeElement [0, st.blindedElement.e.val]
      = .ok st.blindedElement.e := by
    rw [← serializeElement_pair]; exact element_round _ he
  rw [PoprfClient.serialize, serializeScalar_pair, serializeElement_pair,
    i2osp_two]
  show PoprfClient.deserialize (0 :: st.r.val :: 0 :: st.blindedElement.e.val
    :: (st.input.length / 256 % 256) :: (st.input.length % 256) :: st.input)
    = .ok st
  rw [PoprfClient.deserialize, hr, hb]
  show (if st.input.length = st.input.length / 256 % 256 * 256 +
      st.input.length % 256 then
      Except.ok (⟨st.r, ⟨st.blindedElement.e⟩, st.input⟩ : PoprfClient)
    else Except.error Error.Deserialization) = .ok st
  rw [if_pos (by omega)]

/-- OprfServer serialization round-trips for non-zero keys. -/
theorem oprf_server_round (srv : OprfServer) (h : srv.sk ≠ 0) :
    OprfServer.deserialize (OprfServer.serialize srv) = .ok srv := by
  rw [OprfServer.serialize, OprfServer.deserialize, scalar_round]
  simp [Except.bind, h]

/-- VoprfServer serialization round-trips for non-zero keys satisfying the
public-key invariant. -/
theorem voprf_server_round (srv : VoprfServer) (h : srv.sk ≠ 0)
    (hpk : srv.pk = srv.sk * generator) :
    VoprfServer.deserialize (VoprfServer.serialize srv) = .ok srv := by
  rw [VoprfServer.serialize, VoprfServer.deserialize, scalar_round]
  cases srv with
  | mk sk pk =>
    simp only at h hpk
    subst hpk
    simp [Except.bind, h]

/-- C5: round-trip serialization: for every public type,
`deserialize(serialize(x)) = .ok x` on the values the library constructs
(elements non-identity, server keys non-zero and satisfying the public-key
invariant, inputs shorter than `2^16`), and the serialized length equals
the declared constant of the type. -/
theorem serialization_round_trip :
    (∀ s : Scalar, deserializeScalar (serializeScalar s) = .ok s ∧
      (serializeScalar s).length = ScalarLen) ∧
    (∀ e : Element, e ≠ identityElement →
      deserializeElement (serializeElement e) = .ok e ∧
      (serializeElement e).length = ElementLen) ∧
    (∀ x : BlindedElement, x.e ≠ identityElement →
      BlindedElement.deserialize x.serialize = .ok x ∧
      x.serialize.length = BlindedElementLen) ∧
    (∀ x : EvaluationElement, x.e ≠ identityElement →
      EvaluationElement.deserialize x.serialize = .ok x ∧
      x.serialize.length = EvaluationElementLen) ∧
    (∀ pf : Proof, Proof.deserialize pf.serialize = .ok pf ∧
      pf.serialize.length = ProofLen) ∧
    (∀ st : OprfClient, st.input.length < 2 ^ 16 →
      OprfClient.deserialize st.serialize = .ok st ∧
      st.serialize.length = OprfClientLen st.input.length) ∧
    (∀ st : VoprfClient, st.blindedElement.e ≠ identityElement →
      st.input.length < 2 ^ 16 →
      VoprfClient.deserialize st.serialize = .ok st ∧
      st.serialize.length = VoprfClientLen st.input.length) ∧
    (∀ st : PoprfClient, st.blindedElement.e ≠ identityElement →
      st.input.length < 2 ^ 16 →
      PoprfClient.deserialize st.serialize = .ok st ∧
      st.serialize.length = PoprfClientLen st.input.length) ∧
    (∀ srv : OprfServer, srv.sk ≠ 0 →
      OprfServer.deserialize srv.serialize = .ok srv ∧
      srv.serialize.length = OprfServerLen) ∧
    (∀ srv : VoprfServer, srv.sk ≠ 0 → srv.pk = srv.sk * generator →
      VoprfServer.deserialize srv.serialize = .ok srv ∧
      srv.serialize.length = VoprfServerLen) := by
  refine ⟨fun s => ⟨scalar_round s, ?_⟩,
    fun e he => ⟨element_round e he, ?_⟩,
    fun x hx => ⟨?_, ?_⟩, fun x hx => ⟨?_, ?_⟩,
    fun pf => ⟨proof_round pf, ?_⟩,
    fun st h => ⟨oprf_client_round st h, ?_⟩,
    fun st he h => ⟨voprf_client_round st he h, ?_⟩,
    fun st he h => ⟨poprf_client_round st he h, ?_⟩,
    fun srv h => ⟨oprf_server_round srv h, ?_⟩,
    fun srv h hpk => ⟨voprf_server_round srv h hpk, ?_⟩⟩
  · rw [serializeScalar_pair]; rfl
  · rw [serializeElement_pair]; rfl
  · rw [BlindedElement.deserialize, BlindedElement.serialize,
      element_round x.e hx]
    rfl
  · rw [BlindedElement.serialize, serializeElement_pair]; rfl
  · rw [EvaluationElement.deserialize, EvaluationElement.serialize,
      element_round x.e hx]
    rfl
  · rw [EvaluationElement.serialize, serializeElement_pair]; rfl
  · rw [Proof.serialize, serializeScalar_pair, serializeScalar_pair]; rfl
  · rw [OprfClient.serialize, serializeScalar_pair]
    simp [OprfClientLen, Ns, i2osp_two]
    omega
  · rw [VoprfClient.serialize, serializeScalar_pair, serializeElement_pair]
    simp [VoprfClientLen, Ns, Ne, i2osp_two]
    omega
  · rw [PoprfClient.serialize, serializeScalar_pair, serializeElement_pair]
    simp [PoprfClientLen, Ns, Ne, i2osp_two]
    omega
  · rw [OprfServer.serialize, serializeScalar_pair]; rfl
  · rw [VoprfServer.serialize, serializeScalar_pair]; rfl

/-- Witness for C5: concrete values of every public type. -/
theorem serialization_round_trip_witness :
    (deserializeScalar (serializeScalar 5) = .ok 5 ∧
      (serializeScalar 5).length = ScalarLen) ∧
    (deserializeElement (serializeElement 7) = .ok 7 ∧
      (serializeElement 7).length = ElementLen) ∧
    (BlindedElement.deserialize (BlindedElement.serialize ⟨7⟩) = .ok ⟨7⟩ ∧
      (BlindedElement.serialize ⟨7⟩).length = BlindedElementLen) ∧
    (EvaluationElement.deserialize (EvaluationElement.serialize ⟨7⟩)
        = .ok ⟨7⟩ ∧
      (EvaluationElement.serialize ⟨7⟩).length = EvaluationElementLen) ∧
    (Proof.deserialize (Proof.serialize ⟨2, 3⟩) = .ok ⟨2, 3⟩ ∧
      (Proof.serialize ⟨2, 3⟩).length = ProofLen) ∧
    (OprfClient.deserialize (OprfClient.serialize ⟨2, [1]⟩) = .ok ⟨2, [1]⟩ ∧
      (OprfClient.serialize ⟨2, [1]⟩).length = OprfClientLen 1) ∧
    (VoprfClient.deserialize (VoprfClient.serialize ⟨2, ⟨7⟩, [1]⟩)
        = .ok ⟨2, ⟨7⟩, [1]⟩ ∧
      (VoprfClient.serialize ⟨2, ⟨7⟩, [1]⟩).length = VoprfClientLen 1) ∧
    (PoprfClient.deserialize (PoprfClient.serialize ⟨2, ⟨7⟩, [1]⟩)
        = .ok ⟨2, ⟨7⟩, [1]⟩ ∧
      (PoprfClient.serialize ⟨2, ⟨7⟩, [1]⟩).length = PoprfClientLen 1) ∧
    (OprfServer.deserialize (OprfServer.serialize ⟨3⟩) = .ok ⟨3⟩ ∧
      (OprfServer.serialize ⟨3⟩).length = OprfServerLen) ∧
    (VoprfServer.deserialize (VoprfServer.serialize ⟨3, 3 * generator⟩)
        = .ok ⟨3, 3 * generator⟩ ∧
      (VoprfServer.serialize ⟨3, 3 * generator⟩).length = VoprfServerLen) :=
  ⟨serialization_round_trip.1 5,
   serialization_round_trip.2.1 7 (by decide),
   serialization_round_trip.2.2.1 ⟨7⟩ (by decide),
   serialization_round_trip.2.2.2.1 ⟨7⟩ (by decide),
   serialization_round_trip.2.2.2.2.1 ⟨2, 3⟩,
   serialization_round_trip.2.2.2.2.2.1 ⟨2, [1]⟩ (by decide),
   serialization_round_trip.2.2.2.2.2.2.1 ⟨2, ⟨7⟩, [1]⟩ (by decide)
     (by decide),
   serialization_round_trip.2.2.2.2.2.2.2.1 ⟨2, ⟨7⟩, [1]⟩ (by decide)
     (by decide),
   serialization_round_trip.2.2.2.2.2.2.2.2.1 ⟨3⟩ (by decide),
   serialization_round_trip.2.2.2.2.2.2.2.2.2 ⟨3, 3 * generator⟩ (by decide)
     rfl⟩

end Voprf
